import Mathlib

/-!
# Verification of the photo-maps extraction / clustering pipeline

Shallow embedding of the core pipeline of the `earayu/photo-maps` repository:

* `src/plot/photo_meta_extractor.py` — content hashing, EXIF/GPS parsing,
  incremental store semantics (`PhotoMetaExtractor`);
* `src/plot/plot.py` — a duplicated variant of the same extractor (its
  `_convert_exif_to_serializable` differs);
* `src/plot/mapper_plotter.py` — the greedy proximity clusterer
  (`MapperPlotter._group_nearby_photos`).

Python floats are modelled as exact rationals (`ℚ`); where the source feeds
coordinates through the transcendental haversine formula the distance lives in
`ℝ`.  Python dicts keyed by tag names are modelled as association lists in the
order the source builds them; the `set` of known digests is a `Finset String`.
Stateful code is explicit state passing; fallible code returns `Option` or a
dedicated result inductive whose constructors are the distinct `return` paths
of the source.
-/

/-- A duck-typed Python value as it occurs in EXIF tag tables.
`bytes` carries the raw byte list; `other` models a value of any type
outside str/int/float/bytes/tuple/dict (for example a PIL `IFDRational`) and
carries the text that `str(value)` would produce for it. -/
inductive PyVal where
  | str : String → PyVal
  | int : Int → PyVal
  | float : ℚ → PyVal
  | bytes : List Nat → PyVal
  | tuple : List PyVal → PyVal
  | dict : List (String × PyVal) → PyVal
  | other : String → PyVal
deriving Repr

mutual
/-- Structural boolean equality on `PyVal` (the nested inductive defeats the
`DecidableEq` deriver, so the instance is built by hand). -/
def PyVal.beq : PyVal → PyVal → Bool
  | .str a, .str b => a == b
  | .int a, .int b => a == b
  | .float a, .float b => a == b
  | .bytes a, .bytes b => a == b
  | .tuple a, .tuple b => PyVal.beqList a b
  | .dict a, .dict b => PyVal.beqKVs a b
  | .other a, .other b => a == b
  | _, _ => false

def PyVal.beqList : List PyVal → List PyVal → Bool
  | [], [] => true
  | a :: as, b :: bs => PyVal.beq a b && PyVal.beqList as bs
  | _, _ => false

def PyVal.beqKVs : List (String × PyVal) → List (String × PyVal) → Bool
  | [], [] => true
  | a :: as, b :: bs => a.1 == b.1 && PyVal.beq a.2 b.2 && PyVal.beqKVs as bs
  | _, _ => false
end

theorem PyVal.beq_iff : ∀ a b : PyVal, (PyVal.beq a b = true ↔ a = b) := by
  apply PyVal.beq.induct
    (fun a b => (PyVal.beq a b = true ↔ a = b))
    (fun as bs => (PyVal.beqKVs as bs = true ↔ as = bs))
    (fun as bs => (PyVal.beqList as bs = true ↔ as = bs))
  case case8 =>
    intro t x h1 h2 h3 h4 h5 h6 h7
    cases t <;> cases x <;> simp_all [PyVal.beq]
  case case11 =>
    intro t x h1 h2
    cases t <;> cases x <;> simp_all [PyVal.beqList]
    exact fun _ _ => h2 _ _ _ _ rfl rfl rfl rfl
  case case14 =>
    intro t x h1 h2
    cases t <;> cases x <;> simp_all [PyVal.beqKVs]
    exact absurd rfl (h2 _ _ _ _ _ _ rfl rfl rfl)
  all_goals intros
  all_goals simp_all [PyVal.beq, PyVal.beqList, PyVal.beqKVs, Prod.ext_iff]

instance : DecidableEq PyVal :=
  fun a b => decidable_of_iff (PyVal.beq a b = true) (PyVal.beq_iff a b)

/-!
## UTF-8 decoding with the `ignore` error handler

`photo_meta_extractor.py` line 89 and `plot.py` line 97 call
`exif_data.decode(utf-8, ignore)` on byte values.  That Python call is
total: valid sequences decode to their characters, undecodable bytes are
dropped and decoding resumes at the next byte.  We model the decoder
explicitly.  (On a malformed multi-byte sequence CPython may drop the whole
consumed prefix where this model drops the leading byte and resumes; both
agree on fully valid input and both always return a string.)
-/

/-- Is `b` a UTF-8 continuation byte (`0x80 ≤ b ≤ 0xBF`)? -/
def isCont (b : Nat) : Bool := 0x80 ≤ b && b ≤ 0xBF

/-- Decode a byte list as UTF-8, dropping undecodable bytes
(the `ignore` error handler).  The `fuel` argument only makes the
recursion structural (every step consumes at least one byte, so a fuel equal
to the initial list length never runs out; `utf8DecodeIgnore` passes exactly
that). -/
def utf8DecodeIgnoreAux : Nat → List Nat → List Char
  | 0, _ => []
  | _ + 1, [] => []
  | fuel + 1, b :: rest =>
    if b < 0x80 then
      Char.ofNat b :: utf8DecodeIgnoreAux fuel rest
    else if 0xC2 ≤ b && b ≤ 0xDF then
      match rest with
      | [] => []
      | c :: rest2 =>
        if isCont c then
          Char.ofNat ((b - 0xC0) * 64 + (c - 0x80)) :: utf8DecodeIgnoreAux fuel rest2
        else
          utf8DecodeIgnoreAux fuel rest
    else if 0xE0 ≤ b && b ≤ 0xEF then
      match rest with
      | c1 :: c2 :: rest3 =>
        if isCont c1 && isCont c2
            && (b ≠ 0xE0 || 0xA0 ≤ c1) && (b ≠ 0xED || c1 ≤ 0x9F) then
          Char.ofNat ((b - 0xE0) * 4096 + (c1 - 0x80) * 64 + (c2 - 0x80))
            :: utf8DecodeIgnoreAux fuel rest3
        else
          utf8DecodeIgnoreAux fuel rest
      | _ => []
    else if 0xF0 ≤ b && b ≤ 0xF4 then
      match rest with
      | c1 :: c2 :: c3 :: rest4 =>
        if isCont c1 && isCont c2 && isCont c3
            && (b ≠ 0xF0 || 0x90 ≤ c1) && (b ≠ 0xF4 || c1 ≤ 0x8F) then
          Char.ofNat ((b - 0xF0) * 262144 + (c1 - 0x80) * 4096
              + (c2 - 0x80) * 64 + (c3 - 0x80))
            :: utf8DecodeIgnoreAux fuel rest4
        else
          utf8DecodeIgnoreAux fuel rest
      | _ => []
    else
      utf8DecodeIgnoreAux fuel rest

/-- Models `bytes.decode(utf-8, ignore)`. -/
def utf8DecodeIgnore (bs : List Nat) : String :=
  String.mk (utf8DecodeIgnoreAux bs.length bs)

/-!
## The two EXIF serializers

`PhotoMetaExtractor.convert_exif_to_serializable`
(`photo_meta_extractor.py` lines 80–93) branches on dict / tuple / bytes and
returns every other value unchanged.

`PhotoMetaExtractor._convert_exif_to_serializable` (`plot.py` lines 91–112)
walks a dict; bytes decode, int/float/str pass, tuples recurse elementwise
(via the singleton-dict trick of the source), dicts recurse, and
any other value becomes `str(value)`.
-/

mutual
/-- Embeds `photo_meta_extractor.py` lines 80–93. -/
def convert_exif_to_serializable : PyVal → PyVal
  | .dict kvs => .dict (convertKVs kvs)
  | .tuple vs => .tuple (convertList vs)
  | .bytes bs => .str (utf8DecodeIgnore bs)
  | v => v

def convertList : List PyVal → List PyVal
  | [] => []
  | v :: vs => convert_exif_to_serializable v :: convertList vs

def convertKVs : List (String × PyVal) → List (String × PyVal)
  | [] => []
  | kv :: kvs => (kv.1, convert_exif_to_serializable kv.2) :: convertKVs kvs
end

mutual
/-- Per-value conversion performed by `plot.py` lines 94–111 on each dict
entry.  The source reaches nested non-dict values through the recursive call
on a singleton dict wrapping each element; elementwise this is the function below. -/
def convertValuePlot : PyVal → PyVal
  | .bytes bs => .str (utf8DecodeIgnore bs)
  | .int n => .int n
  | .float q => .float q
  | .str s => .str s
  | .tuple vs => .tuple (convertListPlot vs)
  | .dict kvs => .dict (convertKVsPlot kvs)
  | .other s => .str s

def convertListPlot : List PyVal → List PyVal
  | [] => []
  | v :: vs => convertValuePlot v :: convertListPlot vs

def convertKVsPlot : List (String × PyVal) → List (String × PyVal)
  | [] => []
  | kv :: kvs => (kv.1, convertValuePlot kv.2) :: convertKVsPlot kvs
end

/-- Embeds `plot.py` lines 91–112: `_convert_exif_to_serializable` applied to a
whole EXIF dict. -/
def convert_exif_to_serializable_plot (kvs : List (String × PyVal)) :
    List (String × PyVal) :=
  convertKVsPlot kvs

/-!
## The closed serializable-shape set of the spec

Scalar (number / string), ordered sequence, or nested mapping — recursively.
This is the property the spec asserts of serializer output; it is not a
function of the source.
-/

mutual
/-- Does a value lie in the closed scalar / sequence / mapping shape set? -/
def isSerializable : PyVal → Bool
  | .str _ => true
  | .int _ => true
  | .float _ => true
  | .bytes _ => false
  | .tuple vs => isSerializableList vs
  | .dict kvs => isSerializableKVs kvs
  | .other _ => false

def isSerializableList : List PyVal → Bool
  | [] => true
  | v :: vs => isSerializable v && isSerializableList vs

def isSerializableKVs : List (String × PyVal) → Bool
  | [] => true
  | kv :: kvs => isSerializable kv.2 && isSerializableKVs kvs
end

/-!
## Data model of the extractor (`photo_meta_extractor.py`)

A `FileEntry` is one directory entry together with everything the per-file
worker can observe of it: the result of `calculate_md5` (lines 51–62, `none`
when reading fails), whether `Image.open` / `_getexif` raises, and the
EXIF table `_getexif()` returns.  The table is modelled post tag-name
resolution (lines 107–116 map numeric ids through the library dicts `TAGS` /
`GPSTAGS`; those dicts are library data, not repository code).  A `none`
table models `_getexif()` returning `None`; an empty list models an empty
dict (both are falsy at line 101).
-/

structure FileEntry where
  name : String
  md5 : Option String
  openFails : Bool
  exifData : Option (List (String × PyVal))
deriving Repr, DecidableEq

/-- The record dict built at `photo_meta_extractor.py` lines 142–150. -/
structure PhotoRecord where
  filename : String
  full_path : String
  coordinates : ℚ × ℚ
  thumbnail : String
  original : String
  exif : PyVal
  md5 : String
deriving Repr, DecidableEq

/-- Constructor arguments of `PhotoMetaExtractor.__init__` that the per-file
work reads (lines 16–24). -/
structure ExtractorCtx where
  photoDir : String
  thumbnailDir : String
  fileTypes : List String
deriving Repr, DecidableEq

/-- Models `os.path.join` for one component; `os.path.abspath` of an absolute input
is the identity, which is how absolute paths are modelled here. -/
def joinPath (dir file : String) : String := dir ++ "/" ++ file

/-- Python `str.lower()` (characterwise; the extension filter only meets
ASCII in practice). -/
def strLower (s : String) : String := String.mk (s.data.map Char.toLower)

/-- Python `str.endswith(suffix)`. -/
def strEndsWith (s suffix : String) : Bool := suffix.data.isSuffixOf s.data

/-- Python dict lookup `tbl[k]` / `tbl.get(k)` on an association list. -/
def lookupTag (tbl : List (String × PyVal)) (k : String) : Option PyVal :=
  (tbl.find? (fun kv => kv.1 == k)).map (fun kv => kv.2)

/-- Models `float(x)` on an EXIF rational-or-number component; `none` models the
`TypeError`/`ValueError` that any non-numeric value raises. -/
def asFloat : PyVal → Option ℚ
  | .int n => some (n : ℚ)
  | .float q => some q
  | _ => none

/-- The unpacking `d, m, s = value` plus the three `float(...)` calls at
lines 67–68; `none` models the exception any other shape raises. -/
def asTriple : PyVal → Option (ℚ × ℚ × ℚ)
  | .tuple [a, b, c] =>
    match asFloat a, asFloat b, asFloat c with
    | some x, some y, some z => some (x, y, z)
    | _, _, _ => none
  | _ => none

/-- Embeds `PhotoMetaExtractor.convert_to_degrees` (lines 64–68) applied to an
already-unpacked triple: `float(d) + float(m)/60.0 + float(s)/3600.0`. -/
def convert_to_degrees (t : ℚ × ℚ × ℚ) : ℚ :=
  t.1 + t.2.1 / 60 + t.2.2 / 3600

/-- Models `gps_info.get(key) in [s1, s2]` (lines 123 and 127): only a string value
equal to one of the two literals matches. -/
def isRefIn (v : Option PyVal) (s1 s2 : String) : Bool :=
  match v with
  | some (.str s) => s == s1 || s == s2
  | _ => false

/-- The three ways `extract_image_info` can return.  The Python function
returns the record dict or `None`; `skip` is the two clean `return None`
paths (lines 101–102 and 131–132), `err` is the `except` handler (lines
151–153) that logs the exception with `logging.error` before returning
`None`.  The split makes the logged-as-error side effect observable. -/
inductive ExtractResult where
  | ok (r : PhotoRecord)
  | skip
  | err
deriving Repr, DecidableEq

/-- Did extraction produce a record? -/
def ExtractResult.isOk : ExtractResult → Bool
  | .ok _ => true
  | _ => false

/-- Embeds `PhotoMetaExtractor.extract_image_info` (lines 95–153).

* `openFails` covers `Image.open` / `_getexif` raising (caught at line 151);
* a falsy EXIF table returns `None` (line 102);
* a `GPSInfo` value that is not dict-like raises at line 112
  (`value.keys()`) and lands in the handler;
* a missing `GPSLatitude` / `GPSLongitude` key raises `KeyError` at
  line 122 / 126 and lands in the handler;
* a malformed degree triple raises inside `convert_to_degrees` and lands in
  the handler;
* otherwise the record of lines 142–150 is returned, with the EXIF table
  (including the GPS sub-dict) serialized by `convert_exif_to_serializable`.

Thumbnail generation (lines 134–137) writes a file but cannot change the
result: `create_thumbnail` catches its own exceptions (lines 70–78). -/
def extract_image_info (ctx : ExtractorCtx) (f : FileEntry) (md5Hash : String) :
    ExtractResult :=
  if f.openFails then .err
  else
    match f.exifData with
    | none => .skip
    | some exifTbl =>
      if exifTbl.isEmpty then .skip
      else
        match lookupTag exifTbl "GPSInfo" with
        | none => .skip
        | some (.dict gps) =>
          match lookupTag gps "GPSLatitude" with
          | none => .err
          | some latV =>
            match asTriple latV with
            | none => .err
            | some lt =>
              let lat0 := convert_to_degrees lt
              let lat := if isRefIn (lookupTag gps "GPSLatitudeRef") "S" "南纬"
                then -lat0 else lat0
              match lookupTag gps "GPSLongitude" with
              | none => .err
              | some lonV =>
                match asTriple lonV with
                | none => .err
                | some ln =>
                  let lon0 := convert_to_degrees ln
                  let lon := if isRefIn (lookupTag gps "GPSLongitudeRef") "W" "西经"
                    then -lon0 else lon0
                  .ok {
                    filename := f.name
                    full_path := joinPath ctx.photoDir f.name
                    coordinates := (lat, lon)
                    thumbnail := joinPath ctx.thumbnailDir ("thumb_" ++ f.name)
                    original := joinPath ctx.photoDir f.name
                    exif := convert_exif_to_serializable (.dict exifTbl)
                    md5 := md5Hash }
        | some _ => .err

/-- The four ways `process_file` (lines 155–168) can return `None` or a
record: extension filter miss (line 157 fails), digest failure (line 160),
digest already known (line 162), or extraction attempted (line 165). -/
inductive FileOutcome where
  | notMatched
  | hashFail
  | skippedUnchanged
  | extracted (res : ExtractResult)
deriving Repr, DecidableEq

/-- Embeds `PhotoMetaExtractor.process_file` (lines 155–168).  `checkSet` is the
value of `self.existing_md5` that the worker thread observes at line 162;
because the main thread grows that set concurrently (line 180), the observed
value is a parameter here rather than the store state. -/
def processFile (ctx : ExtractorCtx) (checkSet : Finset String)
    (f : FileEntry) : FileOutcome :=
  if ctx.fileTypes.any (fun ext => strEndsWith (strLower f.name) ("." ++ strLower ext)) then
    match f.md5 with
    | none => .hashFail
    | some h =>
      if h ∈ checkSet then .skippedUnchanged
      else .extracted (extract_image_info ctx f h)
  else .notMatched

/-- The value `process_file` actually returns (line 161/164/167/168). -/
def FileOutcome.toOption : FileOutcome → Option PhotoRecord
  | .extracted (.ok r) => some r
  | _ => none

/-!
## The metadata store and a run of `process_photos`

The store is the pair `(photos_data, existing_md5)`.  `process_photos`
(lines 170–180) submits every directory entry to a worker pool and, in
`as_completed` order, appends each non-`None` result and adds its digest.
A run is modelled as the fold below over the files in completion order, each
paired with the `existing_md5` snapshot that the line-162 check of its worker
observed.  `validChecks` says which snapshot assignments a real execution
can produce: every observed set contains the initial set (the set only
grows) and is contained in the set current when the file is aggregated.
-/

/-- One iteration of the `as_completed` loop (lines 176–180). -/
def stepFile (ctx : ExtractorCtx) (st : List PhotoRecord × Finset String)
    (fS : FileEntry × Finset String) : List PhotoRecord × Finset String :=
  match (processFile ctx fS.2 fS.1).toOption with
  | some r => (st.1 ++ [r], insert r.md5 st.2)
  | none => st

/-- Embeds `process_photos` over files in completion order, each with the
`existing_md5` snapshot its check observed. -/
def runFiles (ctx : ExtractorCtx) (st : List PhotoRecord × Finset String)
    (sched : List (FileEntry × Finset String)) :
    List PhotoRecord × Finset String :=
  sched.foldl (stepFile ctx) st

/-- Snapshot admissibility for a real interleaving (see module comment). -/
def validChecks (ctx : ExtractorCtx) (initial : Finset String) :
    List PhotoRecord × Finset String → List (FileEntry × Finset String) → Bool
  | _, [] => true
  | st, fS :: rest =>
    decide (initial ⊆ fS.2) && decide (fS.2 ⊆ st.2)
      && validChecks ctx initial (stepFile ctx st fS) rest

/-- The digest index rebuilt at line 40: the set of the md5 entries of the records. -/
def md5Set (data : List PhotoRecord) : Finset String :=
  (data.map PhotoRecord.md5).toFinset

/-- Embeds `persist_metadata` (lines 182–189): what reaches the JSON file is
exactly `photos_data`. -/
def persistMetadata (st : List PhotoRecord × Finset String) : List PhotoRecord :=
  st.1

/-- Embeds `load_existing_metadata` (lines 34–49) on a readable metadata file:
`photos_data` is the persisted list, `existing_md5` its digest set. -/
def loadExistingMetadata (persisted : List PhotoRecord) :
    List PhotoRecord × Finset String :=
  (persisted, md5Set persisted)

/-- The JSON object `json.dump` writes for one record: the dict literal of
lines 142–150, key for key in source order.  A coordinate pair serializes as
a 2-element array of numbers. -/
def serializeRecord (r : PhotoRecord) : List (String × PyVal) :=
  [("filename", .str r.filename),
   ("full_path", .str r.full_path),
   ("coordinates", .tuple [.float r.coordinates.1, .float r.coordinates.2]),
   ("thumbnail", .str r.thumbnail),
   ("original", .str r.original),
   ("exif", r.exif),
   ("md5", .str r.md5)]

/-!
## The proximity clusterer (`mapper_plotter.py` lines 92–127)

`_group_nearby_photos` walks the record list with an index-`processed` set;
an unprocessed record opens a group, then one scan over the whole list pulls
in every still-unprocessed record whose haversine distance to the group
opener is `≤ max_distance`.  The numbered-dict result read in insertion
order is the group list.

The inline distance computation (lines 114–119) is transcendental, so the
fold is stated generically over any linearly ordered distance codomain and
any distance function of the two coordinate pairs; `haversineDistance`
below is the exact formula of the source over `ℝ`, and the real clusterer
is the fold applied to it.
-/

/-- One iteration of the inner scan (lines 107–123): skip processed
indices, join the current group when the distance to the group-opener
coordinates is within `maxDistance`. -/
def innerStep {α : Type} [LinearOrder α] (dist : ℚ × ℚ → ℚ × ℚ → α)
    (maxDistance : α) (c1 : ℚ × ℚ) (acc : List PhotoRecord × Finset ℕ)
    (jp : ℕ × PhotoRecord) : List PhotoRecord × Finset ℕ :=
  if jp.1 ∈ acc.2 then acc
  else if dist c1 jp.2.coordinates ≤ maxDistance then
    (acc.1 ++ [jp.2], insert jp.1 acc.2)
  else acc

/-- One iteration of the outer loop (lines 97–125): an unprocessed record
seeds a group of its own and the inner scan runs over the whole list. -/
def outerStep {α : Type} [LinearOrder α] (dist : ℚ × ℚ → ℚ × ℚ → α)
    (maxDistance : α) (photosEnum : List (ℕ × PhotoRecord))
    (acc : List (List PhotoRecord) × Finset ℕ) (ip : ℕ × PhotoRecord) :
    List (List PhotoRecord) × Finset ℕ :=
  if ip.1 ∈ acc.2 then acc
  else
    let r := photosEnum.foldl (innerStep dist maxDistance ip.2.coordinates)
      ([ip.2], insert ip.1 acc.2)
    (acc.1 ++ [r.1], r.2)

/-- Embeds `MapperPlotter._group_nearby_photos` (lines 92–127), generically in the
distance function. -/
def groupNearbyPhotos {α : Type} [LinearOrder α] (dist : ℚ × ℚ → ℚ × ℚ → α)
    (maxDistance : α) (photos : List PhotoRecord) : List (List PhotoRecord) :=
  (photos.enum.foldl (outerStep dist maxDistance photos.enum) ([], ∅)).1

/-- The weight `create_map` derives for a cluster: `len(group)`
(`mapper_plotter.py` line 175). -/
def clusterWeight (g : List PhotoRecord) : ℕ := g.length

/-- Models `math.radians`. -/
noncomputable def radians (x : ℝ) : ℝ := x * (Real.pi / 180)

/-- Models `math.atan2 y x`. -/
noncomputable def atan2 (y x : ℝ) : ℝ :=
  if 0 < x then Real.arctan (y / x)
  else if x < 0 then
    (if 0 ≤ y then Real.arctan (y / x) + Real.pi
     else Real.arctan (y / x) - Real.pi)
  else if 0 < y then Real.pi / 2
  else if y < 0 then -(Real.pi / 2)
  else 0

/-- The inline haversine distance of `mapper_plotter.py` lines 114–119:
spherical Earth of radius 6 371 000 m. -/
noncomputable def haversineDistance (c1 c2 : ℚ × ℚ) : ℝ :=
  let lat1 : ℝ := (c1.1 : ℝ)
  let lon1 : ℝ := (c1.2 : ℝ)
  let lat2 : ℝ := (c2.1 : ℝ)
  let lon2 : ℝ := (c2.2 : ℝ)
  let R : ℝ := 6371000
  let dlat := radians (lat2 - lat1)
  let dlon := radians (lon2 - lon1)
  let a := Real.sin (dlat / 2) ^ 2
    + Real.cos (radians lat1) * Real.cos (radians lat2) * Real.sin (dlon / 2) ^ 2
  let c := 2 * atan2 (Real.sqrt a) (Real.sqrt (1 - a))
  R * c

/-!
## Structure lemmas about the inner scan and the outer fold

Used to settle the records-at-equal-coordinates invariant: the inner scan
appends exactly the still-unprocessed records within range of the group
opener, in list order, and marks exactly their indices.
-/

/-- The records the inner scan starting from `(G, P)` will absorb: the
entries of `L` that are unprocessed in `P` and within range of `c1`. -/
def absorbedBy {α : Type} [LinearOrder α] (dist : ℚ × ℚ → ℚ × ℚ → α)
    (maxDistance : α) (c1 : ℚ × ℚ) (P : Finset ℕ)
    (L : List (ℕ × PhotoRecord)) : List (ℕ × PhotoRecord) :=
  L.filter (fun jp => !decide (jp.1 ∈ P) && decide (dist c1 jp.2.coordinates ≤ maxDistance))

theorem absorbedBy_congr {α : Type} [LinearOrder α] (dist : ℚ × ℚ → ℚ × ℚ → α)
    (maxDistance : α) (c1 : ℚ × ℚ) (P : Finset ℕ) (k : ℕ)
    (L : List (ℕ × PhotoRecord)) (hk : k ∉ L.map Prod.fst) :
    absorbedBy dist maxDistance c1 (insert k P) L =
      absorbedBy dist maxDistance c1 P L := by
  unfold absorbedBy
  apply List.filter_congr
  intro x hx
  have hxk : x.1 ≠ k := by
    intro h
    exact hk (h ▸ List.mem_map_of_mem Prod.fst hx)
  simp [Finset.mem_insert, hxk]

theorem innerScan_spec {α : Type} [LinearOrder α] (dist : ℚ × ℚ → ℚ × ℚ → α)
    (maxDistance : α) (c1 : ℚ × ℚ) :
    ∀ (L : List (ℕ × PhotoRecord)), (L.map Prod.fst).Nodup →
      ∀ (G : List PhotoRecord) (P : Finset ℕ),
    L.foldl (innerStep dist maxDistance c1) (G, P) =
      (G ++ (absorbedBy dist maxDistance c1 P L).map Prod.snd,
       P ∪ ((absorbedBy dist maxDistance c1 P L).map Prod.fst).toFinset) := by
  intro L
  induction L with
  | nil => intro _ G P; simp [absorbedBy]
  | cons x L ih =>
    intro hnd G P
    have hnd' : x.1 ∉ L.map Prod.fst ∧ (L.map Prod.fst).Nodup := by
      rw [List.map_cons] at hnd
      exact List.nodup_cons.mp hnd
    have hnd2 : (L.map Prod.fst).Nodup := hnd'.2
    have hxL : x.1 ∉ L.map Prod.fst := hnd'.1
    by_cases hP : x.1 ∈ P
    · have hstep : innerStep dist maxDistance c1 (G, P) x = (G, P) := by
        simp [innerStep, hP]
      have hfilt : absorbedBy dist maxDistance c1 P (x :: L) =
          absorbedBy dist maxDistance c1 P L := by
        simp [absorbedBy, hP]
      simp only [List.foldl_cons, hstep, hfilt]
      exact ih hnd2 G P
    · by_cases hd : dist c1 x.2.coordinates ≤ maxDistance
      · have hstep : innerStep dist maxDistance c1 (G, P) x =
            (G ++ [x.2], insert x.1 P) := by
          simp [innerStep, hP, hd]
        have hfilt : absorbedBy dist maxDistance c1 P (x :: L) =
            x :: absorbedBy dist maxDistance c1 P L := by
          simp [absorbedBy, hP, hd]
        simp only [List.foldl_cons, hstep, hfilt]
        rw [ih hnd2 (G ++ [x.2]) (insert x.1 P),
          absorbedBy_congr dist maxDistance c1 P x.1 L hxL]
        simp [Finset.insert_union, Finset.union_insert]
      · have hstep : innerStep dist maxDistance c1 (G, P) x = (G, P) := by
          simp [innerStep, hP, hd]
        have hfilt : absorbedBy dist maxDistance c1 P (x :: L) =
            absorbedBy dist maxDistance c1 P L := by
          simp [absorbedBy, hd]
        simp only [List.foldl_cons, hstep, hfilt]
        exact ih hnd2 G P

theorem foldl_invar {β σ : Type} (f : σ → β → σ) (Q : σ → Prop) :
    ∀ (L : List β) (s : σ), Q s → (∀ t x, x ∈ L → Q t → Q (f t x)) →
      Q (L.foldl f s) := by
  intro L
  induction L with
  | nil => intro s hs _; simpa using hs
  | cons x L ih =>
    intro s hs hstep
    simp only [List.foldl_cons]
    exact ih (f s x) (hstep s x (List.mem_cons_self x L) hs)
      (fun t y hy => hstep t y (List.mem_cons_of_mem x hy))

theorem innerScan_set_mono {α : Type} [LinearOrder α]
    (dist : ℚ × ℚ → ℚ × ℚ → α) (maxDistance : α) (c1 : ℚ × ℚ)
    (L : List (ℕ × PhotoRecord)) (G : List PhotoRecord) (P : Finset ℕ) :
    P ⊆ (L.foldl (innerStep dist maxDistance c1) (G, P)).2 := by
  have h := foldl_invar (innerStep dist maxDistance c1)
    (fun st => P ⊆ st.2) L (G, P) (Finset.Subset.refl P) ?_
  · exact h
  · intro t x _ ht
    unfold innerStep
    by_cases h1 : x.1 ∈ t.2
    · simpa [h1] using ht
    · by_cases h2 : dist c1 x.2.coordinates ≤ maxDistance
      · simp only [h1, h2, if_true, if_false]
        exact ht.trans (Finset.subset_insert x.1 t.2)
      · simpa [h1, h2] using ht

theorem outerStep_set_mono {α : Type} [LinearOrder α]
    (dist : ℚ × ℚ → ℚ × ℚ → α) (maxDistance : α)
    (E : List (ℕ × PhotoRecord)) (st : List (List PhotoRecord) × Finset ℕ)
    (x : ℕ × PhotoRecord) :
    st.2 ⊆ (outerStep dist maxDistance E st x).2 := by
  unfold outerStep
  by_cases h1 : x.1 ∈ st.2
  · simp [h1]
  · simp only [h1, if_false]
    exact (Finset.subset_insert x.1 st.2).trans
      (innerScan_set_mono dist maxDistance x.2.coordinates E [x.2] (insert x.1 st.2))

theorem outerFold_set_mono {α : Type} [LinearOrder α]
    (dist : ℚ × ℚ → ℚ × ℚ → α) (maxDistance : α)
    (E L : List (ℕ × PhotoRecord)) (st : List (List PhotoRecord) × Finset ℕ) :
    st.2 ⊆ (L.foldl (outerStep dist maxDistance E) st).2 := by
  induction L generalizing st with
  | nil => simp
  | cons x L ih =>
    simp only [List.foldl_cons]
    exact (outerStep_set_mono dist maxDistance E st x).trans
      (ih (outerStep dist maxDistance E st x))

theorem outerFold_processes {α : Type} [LinearOrder α]
    (dist : ℚ × ℚ → ℚ × ℚ → α) (maxDistance : α)
    (E : List (ℕ × PhotoRecord)) :
    ∀ (L : List (ℕ × PhotoRecord)) (st : List (List PhotoRecord) × Finset ℕ)
      (x : ℕ × PhotoRecord), x ∈ L →
        x.1 ∈ (L.foldl (outerStep dist maxDistance E) st).2 := by
  intro L
  induction L with
  | nil => intro st x hx; exact absurd hx (List.not_mem_nil x)
  | cons y L ih =>
    intro st x hx
    rcases List.mem_cons.mp hx with h | h
    · subst h
      simp only [List.foldl_cons]
      apply outerFold_set_mono
      unfold outerStep
      by_cases h1 : x.1 ∈ st.2
      · simp [h1]
      · simp only [h1, if_false]
        exact innerScan_set_mono dist maxDistance x.2.coordinates E [x.2]
          (insert x.1 st.2) (Finset.mem_insert_self x.1 st.2)
    · simp only [List.foldl_cons]
      exact ih (outerStep dist maxDistance E st y) x h

theorem keys_nodup_functional {β : Type} :
    ∀ {L : List (ℕ × β)}, (L.map Prod.fst).Nodup →
      ∀ {k : ℕ} {a b : β}, (k, a) ∈ L → (k, b) ∈ L → a = b := by
  intro L
  induction L with
  | nil => intro _ k a b ha _; exact absurd ha (List.not_mem_nil _)
  | cons y L ih =>
    intro hnd k a b ha hb
    have hnd' : y.1 ∉ L.map Prod.fst ∧ (L.map Prod.fst).Nodup := by
      rw [List.map_cons] at hnd
      exact List.nodup_cons.mp hnd
    rcases List.mem_cons.mp ha with ha1 | ha1 <;>
      rcases List.mem_cons.mp hb with hb1 | hb1
    · exact (Prod.ext_iff.mp (ha1.trans hb1.symm)).2
    · exfalso
      apply hnd'.1
      rw [← ha1]
      exact List.mem_map.mpr ⟨(k, b), hb1, rfl⟩
    · exfalso
      apply hnd'.1
      rw [← hb1]
      exact List.mem_map.mpr ⟨(k, a), ha1, rfl⟩
    · exact ih hnd'.2 ha1 hb1

theorem mem_absorbedBy {α : Type} [LinearOrder α] (dist : ℚ × ℚ → ℚ × ℚ → α)
    (maxDistance : α) (c1 : ℚ × ℚ) (P : Finset ℕ) (L : List (ℕ × PhotoRecord))
    (k : ℕ) (q : PhotoRecord) :
    (k, q) ∈ absorbedBy dist maxDistance c1 P L ↔
      (k, q) ∈ L ∧ k ∉ P ∧ dist c1 q.coordinates ≤ maxDistance := by
  simp [absorbedBy, List.mem_filter, and_assoc]

theorem outerStep_of_mem {α : Type} [LinearOrder α]
    (dist : ℚ × ℚ → ℚ × ℚ → α) (maxDistance : α)
    (E : List (ℕ × PhotoRecord)) (st : List (List PhotoRecord) × Finset ℕ)
    (x : ℕ × PhotoRecord) (hx1 : x.1 ∈ st.2) :
    outerStep dist maxDistance E st x = st := by
  simp [outerStep, hx1]

theorem outerStep_of_not_mem {α : Type} [LinearOrder α]
    (dist : ℚ × ℚ → ℚ × ℚ → α) (maxDistance : α)
    (E : List (ℕ × PhotoRecord)) (st : List (List PhotoRecord) × Finset ℕ)
    (x : ℕ × PhotoRecord) (hx1 : x.1 ∉ st.2) :
    outerStep dist maxDistance E st x =
      (st.1 ++ [(E.foldl (innerStep dist maxDistance x.2.coordinates)
          ([x.2], insert x.1 st.2)).1],
       (E.foldl (innerStep dist maxDistance x.2.coordinates)
          ([x.2], insert x.1 st.2)).2) := by
  simp [outerStep, hx1]

theorem outerStep_pair_invar {α : Type} [LinearOrder α]
    (dist : ℚ × ℚ → ℚ × ℚ → α) (maxDistance : α)
    (E : List (ℕ × PhotoRecord)) (hnd : (E.map Prod.fst).Nodup)
    (i j : ℕ) (pa pb : PhotoRecord)
    (hi : (i, pa) ∈ E) (hj : (j, pb) ∈ E)
    (hc : pa.coordinates = pb.coordinates)
    (hself : dist pa.coordinates pa.coordinates ≤ maxDistance)
    (st : List (List PhotoRecord) × Finset ℕ) (x : ℕ × PhotoRecord)
    (hx : x ∈ E)
    (hInv : (i ∉ st.2 ∧ j ∉ st.2) ∨ ∃ g ∈ st.1, pa ∈ g ∧ pb ∈ g) :
    (i ∉ (outerStep dist maxDistance E st x).2
        ∧ j ∉ (outerStep dist maxDistance E st x).2)
      ∨ ∃ g ∈ (outerStep dist maxDistance E st x).1, pa ∈ g ∧ pb ∈ g := by
  rcases hInv with ⟨hiP, hjP⟩ | ⟨g, hg, hpa, hpb⟩
  · by_cases hx1 : x.1 ∈ st.2
    · rw [outerStep_of_mem dist maxDistance E st x hx1]
      exact Or.inl ⟨hiP, hjP⟩
    · rw [outerStep_of_not_mem dist maxDistance E st x hx1,
        innerScan_spec dist maxDistance x.2.coordinates E hnd [x.2]
          (insert x.1 st.2)]
      set A := absorbedBy dist maxDistance x.2.coordinates (insert x.1 st.2) E
        with hA
      by_cases hdi : dist x.2.coordinates pa.coordinates ≤ maxDistance
      · refine Or.inr ⟨[x.2] ++ A.map Prod.snd, by simp, ?_, ?_⟩
        · by_cases hxi : x.1 = i
          · have hxE : (i, x.2) ∈ E := by
              rw [← hxi]
              simpa using hx
            have hx2 : x.2 = pa := keys_nodup_functional hnd hxE hi
            simp [hx2]
          · refine List.mem_append.mpr (Or.inr ?_)
            refine List.mem_map.mpr ⟨(i, pa), ?_, rfl⟩
            refine (mem_absorbedBy dist maxDistance _ _ E i pa).mpr
              ⟨hi, ?_, hdi⟩
            intro h
            rcases Finset.mem_insert.mp h with h1 | h1
            · exact hxi h1.symm
            · exact hiP h1
        · by_cases hxj : x.1 = j
          · have hxE : (j, x.2) ∈ E := by
              rw [← hxj]
              simpa using hx
            have hx2 : x.2 = pb := keys_nodup_functional hnd hxE hj
            simp [hx2]
          · refine List.mem_append.mpr (Or.inr ?_)
            refine List.mem_map.mpr ⟨(j, pb), ?_, rfl⟩
            refine (mem_absorbedBy dist maxDistance _ _ E j pb).mpr
              ⟨hj, ?_, by rw [← hc]; exact hdi⟩
            intro h
            rcases Finset.mem_insert.mp h with h1 | h1
            · exact hxj h1.symm
            · exact hjP h1
      · have hxi : x.1 ≠ i := by
          intro h
          have hxE : (i, x.2) ∈ E := by
            rw [← h]
            simpa using hx
          have hx2 : x.2 = pa := keys_nodup_functional hnd hxE hi
          rw [hx2] at hdi
          exact hdi hself
        have hxj : x.1 ≠ j := by
          intro h
          have hxE : (j, x.2) ∈ E := by
            rw [← h]
            simpa using hx
          have hx2 : x.2 = pb := keys_nodup_functional hnd hxE hj
          rw [hx2, ← hc] at hdi
          exact hdi hself
        refine Or.inl ⟨?_, ?_⟩
        · intro hmem
          rcases Finset.mem_union.mp hmem with h1 | h1
          · rcases Finset.mem_insert.mp h1 with h2 | h2
            · exact hxi h2.symm
            · exact hiP h2
          · rcases List.mem_map.mp (List.mem_toFinset.mp h1) with ⟨kq, hkq, hk⟩
            have hq : (i, kq.2) ∈ A := by
              have : kq = (i, kq.2) := by
                rw [← hk]
              rw [← this]
              exact hkq
            have hqE := (mem_absorbedBy dist maxDistance _ _ E i kq.2).mp hq
            have : kq.2 = pa := keys_nodup_functional hnd hqE.1 hi
            rw [this] at hqE
            exact hdi hqE.2.2
        · intro hmem
          rcases Finset.mem_union.mp hmem with h1 | h1
          · rcases Finset.mem_insert.mp h1 with h2 | h2
            · exact hxj h2.symm
            · exact hjP h2
          · rcases List.mem_map.mp (List.mem_toFinset.mp h1) with ⟨kq, hkq, hk⟩
            have hq : (j, kq.2) ∈ A := by
              have : kq = (j, kq.2) := by
                rw [← hk]
              rw [← this]
              exact hkq
            have hqE := (mem_absorbedBy dist maxDistance _ _ E j kq.2).mp hq
            have : kq.2 = pb := keys_nodup_functional hnd hqE.1 hj
            rw [this, ← hc] at hqE
            exact hdi hqE.2.2
  · by_cases hx1 : x.1 ∈ st.2
    · rw [outerStep_of_mem dist maxDistance E st x hx1]
      exact Or.inr ⟨g, hg, hpa, hpb⟩
    · rw [outerStep_of_not_mem dist maxDistance E st x hx1]
      refine Or.inr ⟨g, ?_, hpa, hpb⟩
      exact List.mem_append.mpr (Or.inl hg)

/-- Two records at the same coordinates always land in one common group:
general form, for any distance function that puts the shared coordinate
within range of itself. -/
theorem pair_same_group {α : Type} [LinearOrder α]
    (dist : ℚ × ℚ → ℚ × ℚ → α) (maxDistance : α)
    (photos : List PhotoRecord) (i j : ℕ) (pa pb : PhotoRecord)
    (hi : (i, pa) ∈ photos.enum) (hj : (j, pb) ∈ photos.enum)
    (hc : pa.coordinates = pb.coordinates)
    (hself : dist pa.coordinates pa.coordinates ≤ maxDistance) :
    ∃ g ∈ groupNearbyPhotos dist maxDistance photos, pa ∈ g ∧ pb ∈ g := by
  have hnd : (photos.enum.map Prod.fst).Nodup := by
    rw [List.enum_map_fst]
    exact List.nodup_range photos.length
  set E := photos.enum with hE
  set final := E.foldl (outerStep dist maxDistance E) ([], ∅) with hfinal
  have hInv : (i ∉ final.2 ∧ j ∉ final.2)
      ∨ ∃ g ∈ final.1, pa ∈ g ∧ pb ∈ g := by
    apply foldl_invar (outerStep dist maxDistance E)
      (fun st => (i ∉ st.2 ∧ j ∉ st.2) ∨ ∃ g ∈ st.1, pa ∈ g ∧ pb ∈ g)
      E ([], ∅)
    · exact Or.inl (by simp)
    · intro t x hxE ht
      exact outerStep_pair_invar dist maxDistance E hnd i j pa pb hi hj hc
        hself t x hxE ht
  have hidone : i ∈ final.2 :=
    outerFold_processes dist maxDistance E E ([], ∅) (i, pa) hi
  rcases hInv with ⟨h1, _⟩ | h2
  · exact absurd hidone h1
  · exact h2

/-- The haversine distance from a point to itself is zero. -/
theorem haversineDistance_self (c : ℚ × ℚ) : haversineDistance c c = 0 := by
  unfold haversineDistance atan2
  norm_num [radians, Real.arctan_zero]

/-!
## Claim theorems: proximity clustering
-/

/-- A record literal used to instantiate clustering statements. -/
def testRec (nm : String) (c : ℚ × ℚ) : PhotoRecord :=
  { filename := nm, full_path := nm, coordinates := c, thumbnail := nm,
    original := nm, exif := .dict [], md5 := nm }

/-- A computable distance on coordinate pairs (difference of the second
components) used to instantiate clustering statements on concrete inputs. -/
def latDiffDist (p q : ℚ × ℚ) : ℚ := q.2 - p.2

/-- C3: membership in a cluster is decided by the distance to the seed
only, never to later-joined members: for three records at distances 0 m,
40 m and 80 m from the seed (the second and third being 40 m apart, so the
third is within range of the second member) and threshold 50 m, the output
is exactly one cluster `[A, B]` and a singleton `[C]`.  Stated for every
distance function into a linearly ordered field, hence in particular for
the haversine great-circle distance of the source. -/
theorem claim_C3 {α : Type} [LinearOrderedField α]
    (dist : ℚ × ℚ → ℚ × ℚ → α) (A B C : PhotoRecord)
    (h1 : dist A.coordinates B.coordinates = 40)
    (h2 : dist A.coordinates C.coordinates = 80)
    (h3 : dist B.coordinates C.coordinates = 40) :
    groupNearbyPhotos dist 50 [A, B, C] = [[A, B], [C]] := by
  norm_num [groupNearbyPhotos, outerStep, innerStep, List.enum, List.enumFrom,
    h1, h2, h3]

/-- Witness for C3 at concrete records 0 m / 40 m / 80 m apart under
`latDiffDist`. -/
theorem claim_C3_witness :
    latDiffDist (testRec "a" (0, 0)).coordinates
        (testRec "b" (0, 40)).coordinates = 40
  ∧ latDiffDist (testRec "a" (0, 0)).coordinates
        (testRec "c" (0, 80)).coordinates = 80
  ∧ latDiffDist (testRec "b" (0, 40)).coordinates
        (testRec "c" (0, 80)).coordinates = 40
  ∧ groupNearbyPhotos latDiffDist 50
        [testRec "a" (0, 0), testRec "b" (0, 40), testRec "c" (0, 80)]
      = [[testRec "a" (0, 0), testRec "b" (0, 40)], [testRec "c" (0, 80)]] :=
  ⟨by norm_num [latDiffDist, testRec], by norm_num [latDiffDist, testRec],
    by norm_num [latDiffDist, testRec],
    claim_C3 latDiffDist (testRec "a" (0, 0)) (testRec "b" (0, 40))
      (testRec "c" (0, 80)) (by norm_num [latDiffDist, testRec])
      (by norm_num [latDiffDist, testRec])
      (by norm_num [latDiffDist, testRec])⟩

/-- C4: a distance exactly equal to `max_distance` joins the later record to
the cluster of the earlier record (the comparison is `≤`, not `<`), while a
strictly greater distance leaves it out, producing two singleton clusters,
each a valid cluster of weight 1.  Stated for every distance function into
a linearly ordered field, hence in particular for the haversine
great-circle distance of the source. -/
theorem claim_C4 {α : Type} [LinearOrderedField α]
    (dist : ℚ × ℚ → ℚ × ℚ → α) (maxDistance : α) (r1 r2 : PhotoRecord) :
    (dist r1.coordinates r2.coordinates = maxDistance →
      groupNearbyPhotos dist maxDistance [r1, r2] = [[r1, r2]])
  ∧ (maxDistance < dist r1.coordinates r2.coordinates →
      groupNearbyPhotos dist maxDistance [r1, r2] = [[r1], [r2]]
        ∧ clusterWeight [r1] = 1 ∧ clusterWeight [r2] = 1) := by
  constructor
  · intro h1
    norm_num [groupNearbyPhotos, outerStep, innerStep, List.enum,
      List.enumFrom, h1]
  · intro h1
    refine ⟨?_, rfl, rfl⟩
    norm_num [groupNearbyPhotos, outerStep, innerStep, List.enum,
      List.enumFrom, not_le.mpr h1]

/-- Witness for C4: two records exactly 50 apart merge; two records 51
apart form two singleton clusters of weight 1. -/
theorem claim_C4_witness :
    groupNearbyPhotos latDiffDist 50 [testRec "a" (0, 0), testRec "b" (0, 50)]
      = [[testRec "a" (0, 0), testRec "b" (0, 50)]]
  ∧ (groupNearbyPhotos latDiffDist 50 [testRec "a" (0, 0), testRec "c" (0, 51)]
        = [[testRec "a" (0, 0)], [testRec "c" (0, 51)]]
      ∧ clusterWeight [testRec "a" (0, 0)] = 1
      ∧ clusterWeight [testRec "c" (0, 51)] = 1) :=
  ⟨(claim_C4 latDiffDist 50 (testRec "a" (0, 0)) (testRec "b" (0, 50))).1
      (by norm_num [latDiffDist, testRec]),
   (claim_C4 latDiffDist 50 (testRec "a" (0, 0)) (testRec "c" (0, 51))).2
      (by norm_num [latDiffDist, testRec])⟩

/-- C10: two records carrying exactly equal coordinate pairs always end up
in the same output cluster of the haversine-based grouping, for any
non-negative threshold, because membership is decided by the haversine
distance to a seed and that distance is the same for both records — in
particular zero, hence within range, when the seed is one of them. -/
theorem claim_C10 (photos : List PhotoRecord) (maxDistance : ℝ)
    (h0 : 0 ≤ maxDistance) (i j : ℕ) (pa pb : PhotoRecord)
    (hi : (i, pa) ∈ photos.enum) (hj : (j, pb) ∈ photos.enum)
    (hc : pa.coordinates = pb.coordinates) :
    ∃ g ∈ groupNearbyPhotos haversineDistance maxDistance photos,
      pa ∈ g ∧ pb ∈ g :=
  pair_same_group haversineDistance maxDistance photos i j pa pb hi hj hc
    (by rw [haversineDistance_self]; exact h0)

/-- Witness for C10 at two concrete records sharing the coordinates (1, 2)
and the default threshold 50. -/
theorem claim_C10_witness :
    (0 : ℝ) ≤ 50
  ∧ (0, testRec "x" (1, 2)) ∈ ([testRec "x" (1, 2), testRec "y" (1, 2)]).enum
  ∧ (1, testRec "y" (1, 2)) ∈ ([testRec "x" (1, 2), testRec "y" (1, 2)]).enum
  ∧ (testRec "x" (1, 2)).coordinates = (testRec "y" (1, 2)).coordinates
  ∧ ∃ g ∈ groupNearbyPhotos haversineDistance 50
        [testRec "x" (1, 2), testRec "y" (1, 2)],
      testRec "x" (1, 2) ∈ g ∧ testRec "y" (1, 2) ∈ g :=
  ⟨by norm_num, by simp [List.enum, List.enumFrom],
    by simp [List.enum, List.enumFrom], rfl,
    claim_C10 [testRec "x" (1, 2), testRec "y" (1, 2)] 50 (by norm_num) 0 1
      (testRec "x" (1, 2)) (testRec "y" (1, 2))
      (by simp [List.enum, List.enumFrom])
      (by simp [List.enum, List.enumFrom]) rfl⟩

/-!
## Claim theorems: GPS parsing
-/

/-- A GPS sub-dict as `extract_image_info` sees it after `GPSTAGS`
resolution: degree/minute/second triples plus optional hemisphere
references. -/
def gpsDictOf (latT : ℚ × ℚ × ℚ) (latRef : Option String)
    (lonT : ℚ × ℚ × ℚ) (lonRef : Option String) : List (String × PyVal) :=
  [("GPSLatitude", PyVal.tuple [.float latT.1, .float latT.2.1, .float latT.2.2])]
    ++ (match latRef with
        | some s => [("GPSLatitudeRef", PyVal.str s)]
        | none => [])
    ++ [("GPSLongitude", PyVal.tuple [.float lonT.1, .float lonT.2.1, .float lonT.2.2])]
    ++ (match lonRef with
        | some s => [("GPSLongitudeRef", PyVal.str s)]
        | none => [])

/-- A readable image file whose EXIF consists of exactly one well-formed
GPS block. -/
def mkGpsFile (nm h : String) (latT : ℚ × ℚ × ℚ) (latRef : Option String)
    (lonT : ℚ × ℚ × ℚ) (lonRef : Option String) : FileEntry :=
  { name := nm, md5 := some h, openFails := false,
    exifData := some [("GPSInfo", PyVal.dict (gpsDictOf latT latRef lonT lonRef))] }

/-- A concrete extractor configuration for instantiations. -/
def sampleCtx : ExtractorCtx :=
  { photoDir := "/photos", thumbnailDir := "/photos/data/thumbnails",
    fileTypes := ["jpg", "jpeg", "png"] }

/-- C2: the parser converts a degree/minute/second triple to
`d + m/60 + s/3600` decimal degrees, negating exactly when the latitude
reference is `"S"` or the localized `"南纬"`, or the longitude reference is
`"W"` or the localized `"西经"` (so `"N"` and `"E"` never negate); in
particular the triple (40, 30, 0) with reference `"S"` extracts to latitude
−40.5 = −81/2 exactly. -/
theorem claim_C2 :
    (∀ d m s : ℚ, convert_to_degrees (d, m, s) = d + m / 60 + s / 3600)
  ∧ (∀ (ctx : ExtractorCtx) (nm h : String) (d m s lod lom los : ℚ)
        (latRef lonRef : Option String),
      ∃ r, extract_image_info ctx
            (mkGpsFile nm h (d, m, s) latRef (lod, lom, los) lonRef) h = .ok r
        ∧ r.coordinates.1 =
            (if latRef = some "S" ∨ latRef = some "南纬"
             then -(convert_to_degrees (d, m, s))
             else convert_to_degrees (d, m, s))
        ∧ r.coordinates.2 =
            (if lonRef = some "W" ∨ lonRef = some "西经"
             then -(convert_to_degrees (lod, lom, los))
             else convert_to_degrees (lod, lom, los)))
  ∧ (∃ r, extract_image_info sampleCtx
        (mkGpsFile "a.jpg" "h" (40, 30, 0) (some "S") (0, 0, 0) (some "E")) "h"
          = .ok r
      ∧ r.coordinates.1 = -(81 / 2 : ℚ)) := by
  have hgen : ∀ (ctx : ExtractorCtx) (nm h : String) (d m s lod lom los : ℚ)
      (latRef lonRef : Option String),
      ∃ r, extract_image_info ctx
            (mkGpsFile nm h (d, m, s) latRef (lod, lom, los) lonRef) h = .ok r
        ∧ r.coordinates.1 =
            (if latRef = some "S" ∨ latRef = some "南纬"
             then -(convert_to_degrees (d, m, s))
             else convert_to_degrees (d, m, s))
        ∧ r.coordinates.2 =
            (if lonRef = some "W" ∨ lonRef = some "西经"
             then -(convert_to_degrees (lod, lom, los))
             else convert_to_degrees (lod, lom, los)) := by
    intro ctx nm h d m s lod lom los latRef lonRef
    rcases latRef with _ | ls <;> rcases lonRef with _ | lo <;>
      refine ⟨_, rfl, ?_, ?_⟩ <;>
      simp [extract_image_info, mkGpsFile, gpsDictOf, lookupTag, asTriple,
        asFloat, isRefIn, convert_to_degrees]
  refine ⟨fun d m s => rfl, hgen, ?_⟩
  obtain ⟨r, hr, h1, h2⟩ :=
    hgen sampleCtx "a.jpg" "h" 40 30 0 0 0 0 (some "S") (some "E")
  refine ⟨r, hr, ?_⟩
  rw [h1]
  norm_num [convert_to_degrees]

/-!
## Claim theorems: missing-GPS handling
-/

/-- A readable file whose image has no EXIF at all. -/
def fNoExif : FileEntry :=
  { name := "n.jpg", md5 := some "hn", openFails := false, exifData := none }

/-- A readable file with EXIF but no GPS block. -/
def fNoGps : FileEntry :=
  { name := "g.jpg", md5 := some "hg", openFails := false,
    exifData := some [("Make", .str "MockBrand")] }

/-- A readable file whose GPS block lacks the latitude component. -/
def fGpsNoLat : FileEntry :=
  { name := "c.jpg", md5 := some "hc", openFails := false,
    exifData := some [("GPSInfo", PyVal.dict
      [("GPSLongitude", PyVal.tuple [.float 1, .float 2, .float 3])])] }

/-- A readable file whose GPS block has a latitude but no longitude. -/
def fGpsNoLon : FileEntry :=
  { name := "d.jpg", md5 := some "hd", openFails := false,
    exifData := some [("GPSInfo", PyVal.dict
      [("GPSLatitude", PyVal.tuple [.float 1, .float 2, .float 3])])] }

/-- Counterexample to C5 as stated: a GPS block that lacks the latitude
component does not take a clean skip path — the `KeyError` lands in the
`except` handler that logs the file as an error (modelled by
`ExtractResult.err`, distinct from the clean-skip result `.skip`). -/
theorem claim_C5_counterexample :
    extract_image_info sampleCtx fGpsNoLat "hc" = .err
      ∧ ExtractResult.err ≠ ExtractResult.skip := by
  refine ⟨?_, fun h => ExtractResult.noConfusion h⟩
  rfl

/-- C5 (amended): a file with no EXIF, or EXIF without a GPS block, is
skipped cleanly (returns `None` on a non-error path); a GPS block lacking
the latitude or the longitude component also yields `None`, but through the
logged-as-error exception handler; and in every case in which extraction
does not succeed, no record — not even a partial one — can reach the store,
because `process_file` only ever forwards a successful extraction. -/
theorem claim_C5 :
    (∀ (ctx : ExtractorCtx) (f : FileEntry) (h : String),
      f.openFails = false → f.exifData = none →
        extract_image_info ctx f h = .skip)
  ∧ (∀ (ctx : ExtractorCtx) (f : FileEntry) (h : String)
        (tbl : List (String × PyVal)),
      f.openFails = false → f.exifData = some tbl → tbl.isEmpty = false →
        lookupTag tbl "GPSInfo" = none →
          extract_image_info ctx f h = .skip)
  ∧ (∀ (ctx : ExtractorCtx) (f : FileEntry) (h : String)
        (tbl gps : List (String × PyVal)),
      f.openFails = false → f.exifData = some tbl → tbl.isEmpty = false →
        lookupTag tbl "GPSInfo" = some (.dict gps) →
          lookupTag gps "GPSLatitude" = none →
            extract_image_info ctx f h = .err)
  ∧ (∀ (ctx : ExtractorCtx) (f : FileEntry) (h : String)
        (tbl gps : List (String × PyVal)) (latV : PyVal) (lt : ℚ × ℚ × ℚ),
      f.openFails = false → f.exifData = some tbl → tbl.isEmpty = false →
        lookupTag tbl "GPSInfo" = some (.dict gps) →
          lookupTag gps "GPSLatitude" = some latV → asTriple latV = some lt →
            lookupTag gps "GPSLongitude" = none →
              extract_image_info ctx f h = .err)
  ∧ (∀ (ctx : ExtractorCtx) (S : Finset String) (f : FileEntry)
        (r : PhotoRecord),
      (processFile ctx S f).toOption = some r →
        ∃ h, f.md5 = some h ∧ extract_image_info ctx f h = .ok r) := by
  refine ⟨?_, ?_, ?_, ?_, ?_⟩
  · intro ctx f h h1 h2
    simp [extract_image_info, h1, h2]
  · intro ctx f h tbl h1 h2 h3 h4
    simp [extract_image_info, h1, h2, h3, h4]
  · intro ctx f h tbl gps h1 h2 h3 h4 h5
    simp [extract_image_info, h1, h2, h3, h4, h5]
  · intro ctx f h tbl gps latV lt h1 h2 h3 h4 h5 h6 h7
    simp [extract_image_info, h1, h2, h3, h4, h5, h6, h7]
  · intro ctx S f r hr
    unfold processFile at hr
    split at hr
    · cases hmd : f.md5 with
      | none => rw [hmd] at hr; simp [FileOutcome.toOption] at hr
      | some h =>
        rw [hmd] at hr
        dsimp only at hr
        by_cases hS : h ∈ S
        · rw [if_pos hS] at hr
          simp [FileOutcome.toOption] at hr
        · rw [if_neg hS] at hr
          cases hex : extract_image_info ctx f h with
          | ok r2 =>
            rw [hex] at hr
            simp only [FileOutcome.toOption, Option.some.injEq] at hr
            exact ⟨h, rfl, by rw [hex, hr]⟩
          | skip => rw [hex] at hr; simp [FileOutcome.toOption] at hr
          | err => rw [hex] at hr; simp [FileOutcome.toOption] at hr
    · simp [FileOutcome.toOption] at hr

/-- Witness for C5 at the four concrete files above and an empty store. -/
theorem claim_C5_witness :
    extract_image_info sampleCtx fNoExif "hn" = .skip
  ∧ extract_image_info sampleCtx fNoGps "hg" = .skip
  ∧ extract_image_info sampleCtx fGpsNoLat "hc" = .err
  ∧ extract_image_info sampleCtx fGpsNoLon "hd" = .err
  ∧ ((processFile sampleCtx ∅ fGpsNoLon).toOption = none) :=
  ⟨claim_C5.1 sampleCtx fNoExif "hn" rfl rfl,
   claim_C5.2.1 sampleCtx fNoGps "hg" [("Make", .str "MockBrand")] rfl rfl rfl rfl,
   claim_C5.2.2.1 sampleCtx fGpsNoLat "hc"
     [("GPSInfo", PyVal.dict
        [("GPSLongitude", PyVal.tuple [.float 1, .float 2, .float 3])])]
     [("GPSLongitude", PyVal.tuple [.float 1, .float 2, .float 3])]
     rfl rfl rfl rfl rfl,
   claim_C5.2.2.2.1 sampleCtx fGpsNoLon "hd"
     [("GPSInfo", PyVal.dict
        [("GPSLatitude", PyVal.tuple [.float 1, .float 2, .float 3])])]
     [("GPSLatitude", PyVal.tuple [.float 1, .float 2, .float 3])]
     (PyVal.tuple [.float 1, .float 2, .float 3]) (1, 2, 3)
     rfl rfl rfl rfl rfl rfl rfl,
   by decide⟩

/-!
## Claim theorems: EXIF value serialization
-/

/-- Counterexample to C6 as stated: in `photo_meta_extractor.py` a tag
value of a type outside dict/tuple/bytes is returned unchanged by the
`else` branch (line 92–93), not converted to its string representation, so
a non-serializable value such as a PIL rational survives serialization. -/
theorem claim_C6_counterexample :
    convert_exif_to_serializable (PyVal.other "IFDRational(55, 10)")
        = PyVal.other "IFDRational(55, 10)"
      ∧ isSerializable (PyVal.other "IFDRational(55, 10)") = false :=
  ⟨rfl, rfl⟩

/-- Bytes below 128 decode to exactly their characters. -/
theorem utf8DecodeIgnore_ascii :
    ∀ (cs : List Char), (∀ c ∈ cs, c.toNat < 128) →
      utf8DecodeIgnore (cs.map Char.toNat) = String.mk cs := by
  have haux : ∀ (cs : List Char), (∀ c ∈ cs, c.toNat < 128) →
      utf8DecodeIgnoreAux cs.length (cs.map Char.toNat) = cs := by
    intro cs
    induction cs with
    | nil => intro _; rfl
    | cons c cs ih =>
      intro h
      have hc : c.toNat < 128 := h c (List.mem_cons_self c cs)
      simp only [List.map_cons, List.length_cons, utf8DecodeIgnoreAux, hc,
        if_true, Char.ofNat_toNat]
      exact congrArg (c :: ·) (ih (fun x hx => h x (List.mem_cons_of_mem c hx)))
  intro cs h
  unfold utf8DecodeIgnore
  rw [List.length_map]
  exact congrArg String.mk (haux cs h)

/-- C6 (amended): the `plot.py` serializer maps every EXIF dict into the
closed scalar / sequence / mapping shape set, converting unrecognized types
to their string representation; in both variants a byte value always
becomes the string produced by UTF-8 decoding with undecodable bytes
ignored — never dropped, never a failure — which on plain-ASCII input is
the exact decoded text; the `photo_meta_extractor.py` variant differs only
in passing values of unrecognized types through unchanged. -/
theorem claim_C6 :
    (∀ v : PyVal, isSerializable (convertValuePlot v) = true)
  ∧ (∀ kvs, isSerializableKVs (convert_exif_to_serializable_plot kvs) = true)
  ∧ (∀ bs, convert_exif_to_serializable (.bytes bs) = .str (utf8DecodeIgnore bs)
        ∧ convertValuePlot (.bytes bs) = .str (utf8DecodeIgnore bs))
  ∧ (∀ (cs : List Char), (∀ c ∈ cs, c.toNat < 128) →
      utf8DecodeIgnore (cs.map Char.toNat) = String.mk cs)
  ∧ utf8DecodeIgnore [0xFF] = ""
  ∧ convert_exif_to_serializable (.bytes [72, 105]) = .str "Hi" := by
  have hval : ∀ v : PyVal, isSerializable (convertValuePlot v) = true := by
    apply convertValuePlot.induct
      (fun v => isSerializable (convertValuePlot v) = true)
      (fun kvs => isSerializableKVs (convertKVsPlot kvs) = true)
      (fun vs => isSerializableList (convertListPlot vs) = true)
    all_goals intros
    all_goals simp_all [convertValuePlot, convertKVsPlot, convertListPlot,
      isSerializable, isSerializableKVs, isSerializableList]
  refine ⟨hval, ?_, fun bs => ⟨rfl, rfl⟩, utf8DecodeIgnore_ascii, rfl, ?_⟩
  · intro kvs
    unfold convert_exif_to_serializable_plot
    induction kvs with
    | nil => rfl
    | cons kv kvs ih =>
      simp only [convertKVsPlot, isSerializableKVs, ih, hval, Bool.and_true]
  · have : utf8DecodeIgnore [72, 105] = String.mk ['H', 'i'] := by
      have := utf8DecodeIgnore_ascii ['H', 'i'] (by decide)
      simpa using this
    simp [convert_exif_to_serializable, this]

/-!
## Run-level lemmas about `process_photos`
-/

/-- A successful extraction carries the digest it was given. -/
theorem extract_ok_md5 (ctx : ExtractorCtx) (f : FileEntry) (h : String)
    (r : PhotoRecord) (hr : extract_image_info ctx f h = .ok r) :
    r.md5 = h := by
  unfold extract_image_info at hr
  repeat' split at hr
  all_goals simp_all
  all_goals rw [← hr]

/-- A successful extraction has a mapping-shaped serialized EXIF table. -/
theorem extract_ok_exif_dict (ctx : ExtractorCtx) (f : FileEntry) (h : String)
    (r : PhotoRecord) (hr : extract_image_info ctx f h = .ok r) :
    ∃ kvs, r.exif = PyVal.dict kvs := by
  unfold extract_image_info at hr
  repeat' split at hr
  all_goals simp_all
  all_goals rw [← hr]
  all_goals exact ⟨_, rfl⟩

/-- A run only appends: the incoming record list is an unchanged prefix of
the outgoing one. -/
theorem runFiles_append_only (ctx : ExtractorCtx) :
    ∀ (sched : List (FileEntry × Finset String))
      (st : List PhotoRecord × Finset String),
      ∃ tail, (runFiles ctx st sched).1 = st.1 ++ tail := by
  intro sched
  induction sched with
  | nil => intro st; exact ⟨[], by simp [runFiles]⟩
  | cons fS sched ih =>
    intro st
    show ∃ tail, (runFiles ctx (stepFile ctx st fS) sched).1 = st.1 ++ tail
    cases hp : (processFile ctx fS.2 fS.1).toOption with
    | none =>
      have hstep : stepFile ctx st fS = st := by simp [stepFile, hp]
      rw [hstep]
      exact ih st
    | some r =>
      have hstep : stepFile ctx st fS = (st.1 ++ [r], insert r.md5 st.2) := by
        simp [stepFile, hp]
      rw [hstep]
      obtain ⟨tail, htail⟩ := ih (st.1 ++ [r], insert r.md5 st.2)
      exact ⟨[r] ++ tail, by simpa using htail⟩

/-- The digest set only grows along a run. -/
theorem runFiles_set_mono (ctx : ExtractorCtx) :
    ∀ (sched : List (FileEntry × Finset String))
      (st : List PhotoRecord × Finset String),
      st.2 ⊆ (runFiles ctx st sched).2 := by
  intro sched
  induction sched with
  | nil => intro st; simp [runFiles]
  | cons fS sched ih =>
    intro st
    show st.2 ⊆ (runFiles ctx (stepFile ctx st fS) sched).2
    refine Finset.Subset.trans ?_ (ih (stepFile ctx st fS))
    cases hp : (processFile ctx fS.2 fS.1).toOption with
    | none => simp [stepFile, hp]
    | some r =>
      simp only [stepFile, hp]
      exact Finset.subset_insert r.md5 st.2

/-- Every record a worker produced during the run is in the final list. -/
theorem runFiles_mem (ctx : ExtractorCtx) :
    ∀ (sched : List (FileEntry × Finset String))
      (st : List PhotoRecord × Finset String)
      (f : FileEntry) (S : Finset String) (r : PhotoRecord),
      (f, S) ∈ sched → (processFile ctx S f).toOption = some r →
        r ∈ (runFiles ctx st sched).1 := by
  intro sched
  induction sched with
  | nil => intro st f S r hmem; exact absurd hmem (List.not_mem_nil _)
  | cons fS sched ih =>
    intro st f S r hmem hp
    rcases List.mem_cons.mp hmem with h1 | h1
    · have hstep : stepFile ctx st fS = (st.1 ++ [r], insert r.md5 st.2) := by
        rw [← h1]
        simp [stepFile, hp]
      show r ∈ (runFiles ctx (stepFile ctx st fS) sched).1
      obtain ⟨tail, htail⟩ := runFiles_append_only ctx sched (stepFile ctx st fS)
      rw [htail, hstep]
      simp
    · exact ih (stepFile ctx st fS) f S r h1 hp

/-- The store invariant: the digest set is exactly the digests of the record
list, and a run preserves it. -/
theorem runFiles_md5Set (ctx : ExtractorCtx) :
    ∀ (sched : List (FileEntry × Finset String))
      (st : List PhotoRecord × Finset String),
      st.2 = md5Set st.1 → (runFiles ctx st sched).2 = md5Set (runFiles ctx st sched).1 := by
  intro sched
  induction sched with
  | nil => intro st h; simpa [runFiles] using h
  | cons fS sched ih =>
    intro st h
    show (runFiles ctx (stepFile ctx st fS) sched).2
      = md5Set (runFiles ctx (stepFile ctx st fS) sched).1
    apply ih
    cases hp : (processFile ctx fS.2 fS.1).toOption with
    | none => simpa [stepFile, hp] using h
    | some r =>
      simp only [stepFile, hp]
      rw [h]
      show insert r.md5 (md5Set st.1) = md5Set (st.1 ++ [r])
      unfold md5Set
      rw [List.map_append, List.toFinset_append]
      ext a
      simp [or_comm]

/-- The admissibility facts per schedule entry: each observed snapshot
contains the initial digest set and is contained in the final one. -/
theorem validChecks_facts (ctx : ExtractorCtx) :
    ∀ (sched : List (FileEntry × Finset String)) (initial : Finset String)
      (st : List PhotoRecord × Finset String),
      validChecks ctx initial st sched = true →
        ∀ p ∈ sched, initial ⊆ p.2 ∧ p.2 ⊆ (runFiles ctx st sched).2 := by
  intro sched
  induction sched with
  | nil => intro initial st _ p hp; exact absurd hp (List.not_mem_nil _)
  | cons fS sched ih =>
    intro initial st hv p hp
    unfold validChecks at hv
    rw [Bool.and_eq_true, Bool.and_eq_true] at hv
    obtain ⟨⟨h1, h2⟩, h3⟩ := hv
    rcases List.mem_cons.mp hp with h4 | h4
    · subst h4
      refine ⟨of_decide_eq_true h1, ?_⟩
      refine (of_decide_eq_true h2).trans ?_
      show st.2 ⊆ (runFiles ctx (stepFile ctx st p) sched).2
      refine Finset.Subset.trans ?_ (runFiles_set_mono ctx sched (stepFile ctx st p))
      cases hq : (processFile ctx p.2 p.1).toOption with
      | none => simp [stepFile, hq]
      | some r =>
        simp only [stepFile, hq]
        exact Finset.subset_insert r.md5 st.2
    · exact ih initial (stepFile ctx st fS) h3 p h4

/-- Splitting `validChecks` across schedule concatenation. -/
theorem validChecks_append (ctx : ExtractorCtx) :
    ∀ (xs ys : List (FileEntry × Finset String)) (initial : Finset String)
      (st : List PhotoRecord × Finset String),
      validChecks ctx initial st (xs ++ ys) = true ↔
        (validChecks ctx initial st xs = true
          ∧ validChecks ctx initial (runFiles ctx st xs) ys = true) := by
  intro xs
  induction xs with
  | nil => intro ys initial st; simp [validChecks, runFiles]
  | cons fS xs ih =>
    intro ys initial st
    constructor
    · intro hv
      simp only [validChecks] at hv
      rw [Bool.and_eq_true, Bool.and_eq_true] at hv
      obtain ⟨⟨h1, h2⟩, h3⟩ := hv
      obtain ⟨h4, h5⟩ := (ih ys initial (stepFile ctx st fS)).mp h3
      refine ⟨?_, ?_⟩
      · simp only [validChecks]
        rw [Bool.and_eq_true, Bool.and_eq_true]
        exact ⟨⟨h1, h2⟩, h4⟩
      · show validChecks ctx initial (runFiles ctx (stepFile ctx st fS) xs) ys
          = true
        exact h5
    · intro hv
      obtain ⟨hxs, hys⟩ := hv
      simp only [validChecks] at hxs
      rw [Bool.and_eq_true, Bool.and_eq_true] at hxs
      obtain ⟨⟨h1, h2⟩, h4⟩ := hxs
      have h5 : validChecks ctx initial (runFiles ctx (stepFile ctx st fS) xs)
          ys = true := hys
      simp only [validChecks]
      rw [Bool.and_eq_true, Bool.and_eq_true]
      exact ⟨⟨h1, h2⟩, (ih ys initial (stepFile ctx st fS)).mpr ⟨h4, h5⟩⟩

/-- Files that never contribute a record to the store, judged against the
initial digest set: filtered out by extension, digest computation failed,
digest already known at load time, or extraction does not succeed. -/
def producesNoRecord (ctx : ExtractorCtx) (initial : Finset String)
    (g : FileEntry) : Bool :=
  !(ctx.fileTypes.any fun ext => strEndsWith (strLower g.name) ("." ++ strLower ext))
  || (match g.md5 with
      | none => true
      | some h => decide (h ∈ initial) || !(extract_image_info ctx g h).isOk)

theorem producesNoRecord_toOption (ctx : ExtractorCtx)
    (initial S : Finset String) (g : FileEntry)
    (hg : producesNoRecord ctx initial g = true) (hS : initial ⊆ S) :
    (processFile ctx S g).toOption = none := by
  unfold producesNoRecord at hg
  unfold processFile
  by_cases hm : (ctx.fileTypes.any
      fun ext => strEndsWith (strLower g.name) ("." ++ strLower ext)) = true
  · rw [if_pos hm]
    rw [hm] at hg
    simp only [Bool.not_true, Bool.false_or] at hg
    cases hmd : g.md5 with
    | none => simp [FileOutcome.toOption]
    | some h =>
      rw [hmd] at hg
      simp only [Bool.or_eq_true, decide_eq_true_eq, Bool.not_eq_true'] at hg
      dsimp only
      by_cases hIn : h ∈ S
      · rw [if_pos hIn]
        rfl
      · rw [if_neg hIn]
        rcases hg with hg | hg
        · exact absurd (hS hg) hIn
        · cases hex : extract_image_info ctx g h with
          | ok r => rw [hex] at hg; simp [ExtractResult.isOk] at hg
          | skip => rfl
          | err => rfl
  · rw [if_neg hm]
    rfl

/-- A run in which no file contributes a record leaves the store alone. -/
theorem runFiles_noop_of_none (ctx : ExtractorCtx) :
    ∀ (sched : List (FileEntry × Finset String))
      (st : List PhotoRecord × Finset String),
      (∀ p ∈ sched, (processFile ctx p.2 p.1).toOption = none) →
        runFiles ctx st sched = st := by
  intro sched
  induction sched with
  | nil => intro st _; rfl
  | cons fS sched ih =>
    intro st hnone
    have hstep : stepFile ctx st fS = st := by
      simp [stepFile, hnone fS (List.mem_cons_self fS sched)]
    show runFiles ctx (stepFile ctx st fS) sched = st
    rw [hstep]
    exact ih st (fun p hp => hnone p (List.mem_cons_of_mem fS hp))

/-- A valid run over files that all satisfy `producesNoRecord` with respect
to the initial digest set of the run leaves the store alone. -/
theorem runFiles_noop (ctx : ExtractorCtx) :
    ∀ (sched : List (FileEntry × Finset String)) (initial : Finset String)
      (st : List PhotoRecord × Finset String),
      validChecks ctx initial st sched = true →
        (∀ p ∈ sched, producesNoRecord ctx initial p.1 = true) →
          runFiles ctx st sched = st := by
  intro sched
  induction sched with
  | nil => intro initial st _ _; rfl
  | cons fS sched ih =>
    intro initial st hv hall
    simp only [validChecks] at hv
    rw [Bool.and_eq_true, Bool.and_eq_true] at hv
    obtain ⟨⟨h1, _⟩, h3⟩ := hv
    have hstep : stepFile ctx st fS = st := by
      simp [stepFile, producesNoRecord_toOption ctx initial fS.2 fS.1
        (hall fS (List.mem_cons_self fS sched)) (of_decide_eq_true h1)]
    show runFiles ctx (stepFile ctx st fS) sched = st
    rw [hstep] at h3 ⊢
    exact ih initial st h3 (fun p hp => hall p (List.mem_cons_of_mem fS hp))

/-- After a full valid run from a loaded store, re-checking any of the
files of the run against any superset of the persisted digest set yields no
record: the file is either digest-skipped or re-extracts to its previous
recordless result. -/
theorem second_run_none (ctx : ExtractorCtx) (data0 : List PhotoRecord)
    (sched1 : List (FileEntry × Finset String)) (f : FileEntry)
    (S1 S2 : Finset String)
    (hv1 : validChecks ctx (md5Set data0) (data0, md5Set data0) sched1 = true)
    (hmem : (f, S1) ∈ sched1)
    (hS2 : md5Set (runFiles ctx (data0, md5Set data0) sched1).1 ⊆ S2) :
    (processFile ctx S2 f).toOption = none := by
  set st1 := runFiles ctx (data0, md5Set data0) sched1 with hst1
  have hset : st1.2 = md5Set st1.1 :=
    runFiles_md5Set ctx sched1 (data0, md5Set data0) rfl
  unfold processFile
  by_cases hm : (ctx.fileTypes.any
      fun ext => strEndsWith (strLower f.name) ("." ++ strLower ext)) = true
  · rw [if_pos hm]
    cases hmd : f.md5 with
    | none => simp [FileOutcome.toOption]
    | some h =>
      dsimp only
      by_cases hIn : h ∈ S2
      · rw [if_pos hIn]
        rfl
      · rw [if_neg hIn]
        cases hex : extract_image_info ctx f h with
        | skip => rfl
        | err => rfl
        | ok r =>
          exfalso
          by_cases hS1 : h ∈ S1
          · have hfact := (validChecks_facts ctx sched1 (md5Set data0)
              (data0, md5Set data0) hv1 (f, S1) hmem).2
            rw [← hst1, hset] at hfact
            exact hIn (hS2 (hfact hS1))
          · have hpf : processFile ctx S1 f
                = .extracted (extract_image_info ctx f h) := by
              simp [processFile, hm, hmd, hS1]
            have hopt : (processFile ctx S1 f).toOption = some r := by
              rw [hpf, hex]
              rfl
            have hr1 : r ∈ st1.1 :=
              runFiles_mem ctx sched1 (data0, md5Set data0) f S1 r hmem hopt
            have : h ∈ md5Set st1.1 := by
              rw [← extract_ok_md5 ctx f h r hex]
              exact List.mem_toFinset.mpr
                (List.mem_map_of_mem PhotoRecord.md5 hr1)
            exact hIn (hS2 this)
  · rw [if_neg hm]
    rfl

/-!
## Claim theorems: persisted record shape and the store
-/

/-- Counterexample to C7 as stated: the persisted digest key is spelled
`md5`, not `content_hash`. -/
theorem claim_C7_counterexample :
    "content_hash" ∉ (serializeRecord (testRec "a" (0, 0))).map Prod.fst
      ∧ "md5" ∈ (serializeRecord (testRec "a" (0, 0))).map Prod.fst := by
  constructor
  · decide
  · decide

/-- C7 (amended): every persisted record serializes as a mapping with the
keys `filename, full_path, coordinates, thumbnail, original, exif, md5` in
source order, the coordinates value being a 2-element ordered pair of
numbers; every record the extractor produces carries a mapping-shaped
`exif`; and reloading a persisted store reconstructs exactly the records
plus their digest index, onto which a further record appends in place. -/
theorem claim_C7 :
    (∀ r : PhotoRecord, (serializeRecord r).map Prod.fst =
      ["filename", "full_path", "coordinates", "thumbnail", "original",
       "exif", "md5"])
  ∧ (∀ r : PhotoRecord, lookupTag (serializeRecord r) "coordinates" =
      some (.tuple [.float r.coordinates.1, .float r.coordinates.2]))
  ∧ (∀ (ctx : ExtractorCtx) (f : FileEntry) (h : String) (r : PhotoRecord),
      extract_image_info ctx f h = .ok r → ∃ kvs, r.exif = PyVal.dict kvs)
  ∧ (∀ (data : List PhotoRecord) (S : Finset String),
      loadExistingMetadata (persistMetadata (data, S)) = (data, md5Set data))
  ∧ (∀ (ctx : ExtractorCtx) (st : List PhotoRecord × Finset String)
        (fS : FileEntry × Finset String) (r : PhotoRecord),
      (processFile ctx fS.2 fS.1).toOption = some r →
        stepFile ctx st fS = (st.1 ++ [r], insert r.md5 st.2)) := by
  refine ⟨fun r => rfl, fun r => rfl, extract_ok_exif_dict, fun data S => rfl,
    ?_⟩
  intro ctx st fS r hr
  simp [stepFile, hr]

/-- Witness for C7: a concrete successful extraction has a mapping-shaped
EXIF, and a concrete appended record extends the loaded store in place. -/
theorem claim_C7_witness :
    (∃ r, extract_image_info sampleCtx
        (mkGpsFile "a.jpg" "h1" (40, 30, 0) (some "S") (0, 0, 0) (some "E"))
        "h1" = .ok r ∧ ∃ kvs, r.exif = PyVal.dict kvs)
  ∧ (∃ r, (processFile sampleCtx (∅ : Finset String)
        (mkGpsFile "a.jpg" "h1" (40, 30, 0) (some "S") (0, 0, 0) (some "E"))).toOption
          = some r
      ∧ stepFile sampleCtx ([], ∅)
          (mkGpsFile "a.jpg" "h1" (40, 30, 0) (some "S") (0, 0, 0) (some "E"), ∅)
        = ([r], insert r.md5 ∅)) :=
  ⟨⟨_, rfl, claim_C7.2.2.1 sampleCtx
      (mkGpsFile "a.jpg" "h1" (40, 30, 0) (some "S") (0, 0, 0) (some "E"))
      "h1" _ rfl⟩,
   ⟨_, rfl, claim_C7.2.2.2.2 sampleCtx ([], ∅)
      (mkGpsFile "a.jpg" "h1" (40, 30, 0) (some "S") (0, 0, 0) (some "E"), ∅)
      _ rfl⟩⟩

/-!
## Claim theorems: digest bookkeeping across a run
-/

/-- Two distinct files with identical content. -/
def dupA : FileEntry := mkGpsFile "p1.jpg" "d" (10, 0, 0) (some "N") (20, 0, 0) (some "E")

/-- See `dupA`: same bytes under another name. -/
def dupB : FileEntry := mkGpsFile "p2.jpg" "d" (10, 0, 0) (some "N") (20, 0, 0) (some "E")

/-- C8: digest uniqueness is violated by an admissible concurrent
execution.  Both workers may pass the line-162 membership check against the
not-yet-updated `existing_md5` (the snapshot schedule `[∅, ∅]` is valid),
after which the aggregation loop appends two records with the same digest
`d`.  Under the serialized schedule, in which the second check observes the
first aggregation, the duplicate is correctly skipped — the uniqueness the
claim asserts only holds for such executions. -/
theorem claim_C8 :
    validChecks sampleCtx ∅ ([], ∅) [(dupA, ∅), (dupB, ∅)] = true
  ∧ (runFiles sampleCtx ([], ∅) [(dupA, ∅), (dupB, ∅)]).1.map PhotoRecord.md5
      = ["d", "d"]
  ∧ ¬ ((runFiles sampleCtx ([], ∅) [(dupA, ∅), (dupB, ∅)]).1.map
        PhotoRecord.md5).Nodup
  ∧ validChecks sampleCtx ∅ ([], ∅) [(dupA, ∅), (dupB, {"d"})] = true
  ∧ (runFiles sampleCtx ([], ∅) [(dupA, ∅), (dupB, {"d"})]).1.map
        PhotoRecord.md5 = ["d"] := by
  refine ⟨by decide, rfl, by decide, by decide, rfl⟩

/-- Counterexample to C1 as stated: a candidate file whose first run
produced no record (EXIF without GPS) does not have its digest in the
persisted store, so the second run does not digest-skip it — it is
re-extracted (outcome `.extracted .skip`), performing extraction work
again, even though it still appends nothing. -/
theorem claim_C1_counterexample :
    (runFiles sampleCtx (loadExistingMetadata []) [(fNoGps, ∅)]).1 = []
  ∧ fNoGps.md5 = some "hg"
  ∧ "hg" ∉ md5Set (runFiles sampleCtx (loadExistingMetadata []) [(fNoGps, ∅)]).1
  ∧ processFile sampleCtx
      (md5Set (runFiles sampleCtx (loadExistingMetadata []) [(fNoGps, ∅)]).1)
      fNoGps = .extracted ExtractResult.skip
  ∧ FileOutcome.extracted ExtractResult.skip ≠ FileOutcome.skippedUnchanged :=
  ⟨rfl, rfl, by decide, rfl, fun h => FileOutcome.noConfusion h⟩

/-- C1 (amended): running extraction a second time, with any admissible
check schedule, against the store persisted by a first full run of the same
files leaves the store exactly as loaded: zero records are appended and the
record list equals that of the first run.  (Files whose digest entered the store
are digest-skipped; files that produced no record are re-examined but still
contribute nothing.) -/
theorem claim_C1 (ctx : ExtractorCtx) (data0 : List PhotoRecord)
    (sched1 sched2 : List (FileEntry × Finset String))
    (hfiles : sched2.map Prod.fst = sched1.map Prod.fst)
    (hv1 : validChecks ctx (md5Set data0) (loadExistingMetadata data0) sched1
      = true)
    (hv2 : validChecks ctx
        (md5Set (runFiles ctx (loadExistingMetadata data0) sched1).1)
        (loadExistingMetadata (persistMetadata
          (runFiles ctx (loadExistingMetadata data0) sched1)))
        sched2 = true) :
    runFiles ctx
        (loadExistingMetadata (persistMetadata
          (runFiles ctx (loadExistingMetadata data0) sched1)))
        sched2
      = loadExistingMetadata (persistMetadata
          (runFiles ctx (loadExistingMetadata data0) sched1))
    ∧ (loadExistingMetadata (persistMetadata
          (runFiles ctx (loadExistingMetadata data0) sched1))).1
      = (runFiles ctx (loadExistingMetadata data0) sched1).1 := by
  refine ⟨?_, rfl⟩
  set st1 := runFiles ctx (loadExistingMetadata data0) sched1 with hst1
  apply runFiles_noop_of_none
  intro p hp
  have hfact := (validChecks_facts ctx sched2 (md5Set st1.1)
    (loadExistingMetadata (persistMetadata st1)) hv2 p hp).1
  have hp1 : p.1 ∈ sched1.map Prod.fst := by
    rw [← hfiles]
    exact List.mem_map_of_mem Prod.fst hp
  obtain ⟨q, hq, hq1⟩ := List.mem_map.mp hp1
  have hmem : (p.1, q.2) ∈ sched1 := by
    have hqe : q = (p.1, q.2) := by
      rw [← hq1]
    rw [← hqe]
    exact hq
  exact second_run_none ctx data0 sched1 p.1 q.2 p.2 hv1 hmem hfact

/-- A readable geotagged file used in run-level witnesses. -/
def fGood : FileEntry :=
  mkGpsFile "a.jpg" "h1" (40, 30, 0) (some "S") (0, 0, 0) (some "E")

/-- Witness for C1: one geotagged file, empty initial store; the second run
(whose check observes the persisted digest set) returns the loaded store
unchanged. -/
theorem claim_C1_witness :
    ([(fGood, md5Set (runFiles sampleCtx (loadExistingMetadata [])
          [(fGood, ∅)]).1)].map Prod.fst
        = [(fGood, (∅ : Finset String))].map Prod.fst)
  ∧ validChecks sampleCtx (md5Set []) (loadExistingMetadata []) [(fGood, ∅)]
      = true
  ∧ validChecks sampleCtx
      (md5Set (runFiles sampleCtx (loadExistingMetadata []) [(fGood, ∅)]).1)
      (loadExistingMetadata (persistMetadata
        (runFiles sampleCtx (loadExistingMetadata []) [(fGood, ∅)])))
      [(fGood, md5Set (runFiles sampleCtx (loadExistingMetadata [])
          [(fGood, ∅)]).1)] = true
  ∧ runFiles sampleCtx
      (loadExistingMetadata (persistMetadata
        (runFiles sampleCtx (loadExistingMetadata []) [(fGood, ∅)])))
      [(fGood, md5Set (runFiles sampleCtx (loadExistingMetadata [])
          [(fGood, ∅)]).1)]
    = loadExistingMetadata (persistMetadata
        (runFiles sampleCtx (loadExistingMetadata []) [(fGood, ∅)])) :=
  ⟨rfl, by decide, by decide,
    (claim_C1 sampleCtx [] [(fGood, ∅)]
      [(fGood, md5Set (runFiles sampleCtx (loadExistingMetadata [])
          [(fGood, ∅)]).1)]
      rfl (by decide) (by decide)).1⟩

/-- C9: a pipeline run only appends — the incoming record list is an
unchanged prefix, at its original positions, of the outgoing one — and in a
run whose other files contribute nothing (unchanged digests, or no
location, or per-file failures), one changed file with a fresh digest that
extracts successfully appends exactly one new record and its digest, and
alters nothing else. -/
theorem claim_C9 (ctx : ExtractorCtx) (data0 : List PhotoRecord)
    (pre post : List (FileEntry × Finset String)) (f : FileEntry)
    (S : Finset String) (d : String)
    (hv : validChecks ctx (md5Set data0) (loadExistingMetadata data0)
      (pre ++ (f, S) :: post) = true)
    (hpre : ∀ p ∈ pre, producesNoRecord ctx (md5Set data0) p.1 = true)
    (hpost : ∀ p ∈ post, producesNoRecord ctx (md5Set data0) p.1 = true)
    (hmatch : (ctx.fileTypes.any
      fun ext => strEndsWith (strLower f.name) ("." ++ strLower ext)) = true)
    (hmd : f.md5 = some d)
    (hnew : d ∉ md5Set data0)
    (hok : (extract_image_info ctx f d).isOk = true) :
    (∀ (st : List PhotoRecord × Finset String)
        (sched : List (FileEntry × Finset String)),
      ∃ tail, (runFiles ctx st sched).1 = st.1 ++ tail)
  ∧ ∃ r, extract_image_info ctx f d = .ok r
      ∧ runFiles ctx (loadExistingMetadata data0) (pre ++ (f, S) :: post)
          = (data0 ++ [r], insert d (md5Set data0)) := by
  refine ⟨fun st sched => runFiles_append_only ctx sched st, ?_⟩
  cases hex : extract_image_info ctx f d with
  | skip => rw [hex] at hok; simp [ExtractResult.isOk] at hok
  | err => rw [hex] at hok; simp [ExtractResult.isOk] at hok
  | ok r =>
  refine ⟨r, rfl, ?_⟩
  obtain ⟨hvpre, hvrest⟩ := (validChecks_append ctx pre ((f, S) :: post)
    (md5Set data0) (loadExistingMetadata data0)).mp hv
  have hpre_noop : runFiles ctx (loadExistingMetadata data0) pre
      = loadExistingMetadata data0 :=
    runFiles_noop ctx pre (md5Set data0) (loadExistingMetadata data0)
      hvpre hpre
  rw [hpre_noop] at hvrest
  simp only [validChecks] at hvrest
  rw [Bool.and_eq_true, Bool.and_eq_true] at hvrest
  obtain ⟨⟨_, hSsub⟩, hvpost⟩ := hvrest
  have hdS : d ∉ S := fun hdmem =>
    hnew ((of_decide_eq_true hSsub) hdmem)
  have hstep : stepFile ctx (loadExistingMetadata data0) (f, S)
      = (data0 ++ [r], insert d (md5Set data0)) := by
    have hpf : (processFile ctx S f).toOption = some r := by
      simp [processFile, hmatch, hmd, hdS, FileOutcome.toOption, hex]
    simp only [stepFile, hpf]
    rw [extract_ok_md5 ctx f d r hex]
    rfl
  have hsplit : runFiles ctx (loadExistingMetadata data0)
      (pre ++ (f, S) :: post)
    = runFiles ctx (stepFile ctx (runFiles ctx (loadExistingMetadata data0)
        pre) (f, S)) post := by
    unfold runFiles
    rw [List.foldl_append]
    rfl
  rw [hsplit, hpre_noop, hstep]
  rw [hstep] at hvpost
  exact runFiles_noop ctx post (md5Set data0)
    (data0 ++ [r], insert d (md5Set data0)) hvpost hpost

/-- An unchanged geotagged file whose digest is already in the store. -/
def fOld : FileEntry :=
  mkGpsFile "u.jpg" "old" (1, 0, 0) (some "N") (1, 0, 0) (some "E")

/-- A changed file: fresh digest, successful extraction. -/
def fNew : FileEntry :=
  mkGpsFile "new.jpg" "hnew" (2, 0, 0) (some "N") (3, 0, 0) (some "E")

/-- Witness for C9: a store holding one record with digest `old`, a
directory with the unchanged file (skipped by digest) and one changed file,
which appends exactly one record. -/
theorem claim_C9_witness :
    validChecks sampleCtx (md5Set [testRec "old" (0, 0)])
      (loadExistingMetadata [testRec "old" (0, 0)])
      ([(fOld, {"old"})] ++ (fNew, {"old"}) :: []) = true
  ∧ producesNoRecord sampleCtx (md5Set [testRec "old" (0, 0)]) fOld = true
  ∧ fNew.md5 = some "hnew"
  ∧ "hnew" ∉ md5Set [testRec "old" (0, 0)]
  ∧ (extract_image_info sampleCtx fNew "hnew").isOk = true
  ∧ ∃ r, extract_image_info sampleCtx fNew "hnew" = .ok r
      ∧ runFiles sampleCtx (loadExistingMetadata [testRec "old" (0, 0)])
          ([(fOld, {"old"})] ++ (fNew, {"old"}) :: [])
        = ([testRec "old" (0, 0)] ++ [r],
           insert "hnew" (md5Set [testRec "old" (0, 0)])) :=
  ⟨by decide, by decide, rfl, by decide, by decide,
    (claim_C9 sampleCtx [testRec "old" (0, 0)] [(fOld, {"old"})] []
      fNew {"old"} "hnew" (by decide)
      (fun p hp => by rw [List.mem_singleton.mp hp]; decide)
      (fun p hp => absurd hp (List.not_mem_nil p))
      (by decide) rfl (by decide) (by decide)).2⟩

/-- Witness for C6: a concrete ASCII byte list decodes to exactly its
text. -/
theorem claim_C6_witness :
    (∀ c ∈ ['H', 'i'], c.toNat < 128)
  ∧ utf8DecodeIgnore (['H', 'i'].map Char.toNat) = String.mk ['H', 'i'] :=
  ⟨by decide, claim_C6.2.2.2.1 ['H', 'i'] (by decide)⟩
